import Mathlib

/-!
Verification of the hard-fault capture/persistence subsystem
(`src/hardFault_handler.c`) against its design specification.

The RAM of the device is modelled as a byte-addressed memory `Mem : Nat → Nat`
(each cell conceptually holds one byte; readers reduce cells modulo 256, as the
hardware would).  Machine integers are `Nat` with explicit `% 2^32` wherever the
C code performs 32-bit arithmetic that can wrap.  The linker/platform constants
(`PROG_RAM_END`, `RAM_END`, `_estack`) and the live value of the PSP register
are injected through an environment record `Env`, mirroring how the C code
obtains them from the linker script and from `__get_PSP()`.
-/

namespace HardFault

/-- Byte-addressed memory: address to stored byte value. -/
def Mem : Type := Nat → Nat

/-- `memory_erase(address, length)`: `memset((void*)address, 0, length)` —
writes the byte 0 to every address in `[address, address+length)`. -/
def memory_erase (m : Mem) (address length : Nat) : Mem :=
  fun i => if address ≤ i ∧ i < address + length then 0 else m i

/-- `memory_write(address, data, length)`: `memcpy((void*)address, data, length)` —
the source bytes are given as the list `data` (its length plays the role of the
`length` argument). -/
def memory_write (m : Mem) (address : Nat) (data : List Nat) : Mem :=
  fun i => if address ≤ i ∧ i < address + data.length then data.getD (i - address) 0 else m i

/-- `memory_read(address, data, length)`: `memcpy(data, (void*)address, length)` —
copies `length` bytes from `address` to the destination buffer at address `dst`
(the buffer lives in the same RAM). -/
def memory_read (m : Mem) (address dst length : Nat) : Mem :=
  fun i => if dst ≤ i ∧ i < dst + length then m (address + (i - dst)) else m i

/-- The six SCB fault-status registers, in the order of `SCB_registers_t`
(packed): CFSR, HFSR, DFSR, MMFAR, BFAR, AFSR.  Each field is a 32-bit value. -/
structure SCB_registers_t where
  CFSR : Nat
  HFSR : Nat
  DFSR : Nat
  MMFAR : Nat
  BFAR : Nat
  AFSR : Nat

/-- The eight core registers pushed by the hardware on exception entry, in the
order of `core_registers_t` (packed): R0, R1, R2, R3, R12, LR, PC, PSR. -/
structure core_registers_t where
  R0 : Nat
  R1 : Nat
  R2 : Nat
  R3 : Nat
  R12 : Nat
  LR : Nat
  PC : Nat
  PSR : Nat

/-- Little-endian byte serialization of a 32-bit value (how a packed `uint32_t`
field sits in memory on Cortex-M4). -/
def w32ToBytes (x : Nat) : List Nat :=
  [x % 256, x / 2^8 % 256, x / 2^16 % 256, x / 2^24 % 256]

/-- In-memory image of a packed `SCB_registers_t` (24 bytes). -/
def scbToBytes (s : SCB_registers_t) : List Nat :=
  w32ToBytes s.CFSR ++ w32ToBytes s.HFSR ++ w32ToBytes s.DFSR ++
  w32ToBytes s.MMFAR ++ w32ToBytes s.BFAR ++ w32ToBytes s.AFSR

/-- Read a little-endian 32-bit word from memory at address `a`; each cell is
reduced modulo 256, since a memory cell holds one byte. -/
def readW32 (m : Mem) (a : Nat) : Nat :=
  m a % 256 + m (a + 1) % 256 * 2^8 + m (a + 2) % 256 * 2^16 + m (a + 3) % 256 * 2^24

/-- Environment constants consumed by the C file:
`base` is `ERROR_HANDELING_MEMORY_ADDRESS` (= `PROG_RAM_END`),
`size` is `ERROR_HANDELING_MEMORY_SIZE` (= `RAM_END - PROG_RAM_END`),
`estack` is the linker symbol `_estack` cast to `uint32_t`,
`psp` is the live value returned by `__get_PSP()` at decision time.
All are 32-bit values. -/
structure Env where
  base : Nat
  size : Nat
  estack : Nat
  psp : Nat

/-- `getMainStackBase()`: returns `(uint32_t)_estack`. -/
def getMainStackBase (env : Env) : Nat := env.estack % 2^32

/-- `getTaskStackBase(sp)`: returns `sp + 1024` (uint32 arithmetic). -/
def getTaskStackBase (sp : Nat) : Nat := (sp + 1024) % 2^32

/-- `getStackBase(sp)`: if `sp == __get_PSP()` the fault interrupted a task and
the task stack base is returned, otherwise the main stack base. -/
def getStackBase (env : Env) (sp : Nat) : Nat :=
  if sp = env.psp then getTaskStackBase sp else getMainStackBase env

/-- The local `stackSize = stackBase - (uint32_t)pulFaultStackAddress` of
`prvGetRegistersFromStack` — unsigned 32-bit subtraction, which wraps. -/
def stackSize (env : Env) (sp : Nat) : Nat :=
  (getStackBase env sp + 2^32 - sp % 2^32) % 2^32

/-- The local `sizeLeftForStackDump = ERROR_HANDELING_MEMORY_ADDRESS +
ERROR_HANDELING_MEMORY_SIZE - memoryWriteAddress`, where `memoryWriteAddress`
has been advanced past the 24-byte SCB block — unsigned 32-bit arithmetic. -/
def sizeLeftForStackDump (env : Env) : Nat :=
  ((env.base + env.size) % 2^32 + 2^32 - (env.base + 24) % 2^32) % 2^32

/-- The local `NumOfbyteToWrite = MIN(stackSize, sizeLeftForStackDump)`. -/
def NumOfbyteToWrite (env : Env) (sp : Nat) : Nat :=
  min (stackSize env sp) (sizeLeftForStackDump env)

/-- `hardFault_eraseSavedData()`:
`memory_erase(ERROR_HANDELING_MEMORY_ADDRESS, ERROR_HANDELING_MEMORY_SIZE)`. -/
def hardFault_eraseSavedData (env : Env) (m : Mem) : Mem :=
  memory_erase m env.base env.size

/-- `hardFault_readSavedData(buffer, bufferSize)`: copies `bufferSize` bytes
from the persistent region into the caller's buffer (at address `buffer` in the
same RAM), then returns `core_dump_ptr->core_registers.PC != 0xFFFFFFFF`.
The PC field of `core_dump_t` sits at buffer offset 24 + 4*6 = 48.
Result: the RAM after the copy, paired with the returned `bool`. -/
def hardFault_readSavedData (env : Env) (m : Mem) (buffer bufferSize : Nat) :
    Mem × Bool :=
  let m2 := memory_read m env.base buffer bufferSize
  (m2, readW32 m2 (buffer + 48) != 0xFFFFFFFF)

/-- The RAM state of `prvGetRegistersFromStack` after its first two steps:
`hardFault_eraseSavedData()` followed by the `memory_write` of the 24-byte
packed SCB block at `ERROR_HANDELING_MEMORY_ADDRESS`. -/
def captureAfterHeader (env : Env) (scb : SCB_registers_t) (m : Mem) : Mem :=
  memory_write (hardFault_eraseSavedData env m) env.base (scbToBytes scb)

/-- `prvGetRegistersFromStack(pulFaultStackAddress)` up to (not including) the
final breakpoint/`NVIC_SystemReset()`: erase the region, write the 24-byte SCB
block at the region base, then `memcpy` `NumOfbyteToWrite` bytes of the faulting
stack (starting at `sp = (uint32_t)pulFaultStackAddress`, whose first 32 bytes
are the eight pushed core registers) right after the SCB block; the `memcpy`
source bytes are read from the RAM as it stands at that point.  `scb` holds
the values of the six memory-mapped fault-status registers at capture time. -/
def prvGetRegistersFromStack (env : Env) (scb : SCB_registers_t) (sp : Nat)
    (m : Mem) : Mem :=
  memory_write (captureAfterHeader env scb m) ((env.base + 24) % 2^32)
    ((List.range (NumOfbyteToWrite env sp)).map fun j => captureAfterHeader env scb m (sp + j))

/-- The eight core registers as they sit in the exception frame at address `sp`
in memory `m` — the values "present at capture time". -/
def frameRegisters (m : Mem) (sp : Nat) : core_registers_t where
  R0 := readW32 m sp
  R1 := readW32 m (sp + 4)
  R2 := readW32 m (sp + 8)
  R3 := readW32 m (sp + 12)
  R12 := readW32 m (sp + 16)
  LR := readW32 m (sp + 20)
  PC := readW32 m (sp + 24)
  PSR := readW32 m (sp + 28)

/-- Decode a `core_dump_t` header from memory at address `a`: the six SCB words
at offsets 0..20 and the eight core-register words at offsets 24..52. -/
def decodeDump (m : Mem) (a : Nat) : SCB_registers_t × core_registers_t :=
  (⟨readW32 m a, readW32 m (a + 4), readW32 m (a + 8),
    readW32 m (a + 12), readW32 m (a + 16), readW32 m (a + 20)⟩,
   ⟨readW32 m (a + 24), readW32 m (a + 28), readW32 m (a + 32),
    readW32 m (a + 36), readW32 m (a + 40), readW32 m (a + 44),
    readW32 m (a + 48), readW32 m (a + 52)⟩)

/-! ### Lemmas about the storage primitives -/

theorem memory_erase_in (m : Mem) (a len i : Nat) (h1 : a ≤ i) (h2 : i < a + len) :
    memory_erase m a len i = 0 := by
  unfold memory_erase
  rw [if_pos ⟨h1, h2⟩]

theorem memory_erase_out (m : Mem) (a len i : Nat) (h : i < a ∨ a + len ≤ i) :
    memory_erase m a len i = m i := by
  unfold memory_erase
  rw [if_neg (by omega)]

theorem memory_write_in (m : Mem) (a : Nat) (d : List Nat) (i : Nat)
    (h1 : a ≤ i) (h2 : i < a + d.length) :
    memory_write m a d i = d.getD (i - a) 0 := by
  unfold memory_write
  rw [if_pos ⟨h1, h2⟩]

theorem memory_write_out (m : Mem) (a : Nat) (d : List Nat) (i : Nat)
    (h : i < a ∨ a + d.length ≤ i) :
    memory_write m a d i = m i := by
  unfold memory_write
  rw [if_neg (by omega)]

theorem memory_read_in (m : Mem) (a dst len i : Nat) (h1 : dst ≤ i) (h2 : i < dst + len) :
    memory_read m a dst len i = m (a + (i - dst)) := by
  unfold memory_read
  rw [if_pos ⟨h1, h2⟩]

theorem memory_read_out (m : Mem) (a dst len i : Nat) (h : i < dst ∨ dst + len ≤ i) :
    memory_read m a dst len i = m i := by
  unfold memory_read
  rw [if_neg (by omega)]

theorem scbToBytes_length (s : SCB_registers_t) : (scbToBytes s).length = 24 := by
  simp [scbToBytes, w32ToBytes]

theorem getD_map_range (n j : Nat) (f : Nat → Nat) (h : j < n) :
    ((List.range n).map f).getD j 0 = f j := by
  rw [List.getD_eq_getElem?_getD, List.getElem?_map, List.getElem?_range h]
  rfl

/-- Reading back four little-endian bytes of `x` reconstructs `x % 2^32`. -/
theorem readW32_of_bytes (m : Mem) (a x : Nat)
    (h0 : m a = x % 256) (h1 : m (a + 1) = x / 2^8 % 256)
    (h2 : m (a + 2) = x / 2^16 % 256) (h3 : m (a + 3) = x / 2^24 % 256) :
    readW32 m a = x % 2^32 := by
  unfold readW32
  rw [h0, h1, h2, h3]
  have e8 : (2:Nat)^8 = 256 := by norm_num
  have e16 : (2:Nat)^16 = 65536 := by norm_num
  have e24 : (2:Nat)^24 = 16777216 := by norm_num
  have e32 : (2:Nat)^32 = 4294967296 := by norm_num
  rw [e8, e16, e24, e32]
  omega

theorem readW32_congr (m1 m2 : Mem) (a b : Nat)
    (h : ∀ j, j < 4 → m1 (a + j) = m2 (b + j)) : readW32 m1 a = readW32 m2 b := by
  have h0 := h 0 (by omega)
  have h1 := h 1 (by omega)
  have h2 := h 2 (by omega)
  have h3 := h 3 (by omega)
  rw [Nat.add_zero] at h0
  unfold readW32
  rw [h0, h1, h2, h3, Nat.add_zero b]

/-! ### Byte-level facts about the capture path -/

theorem two_pow_32 : (2:Nat)^32 = 4294967296 := by norm_num

/-- Under sane linker constants, `sizeLeftForStackDump` is the capacity left
after the 24-byte SCB block. -/
theorem sizeLeft_eq (env : Env) (hbs : env.base + env.size < 2^32) (hsz : 24 ≤ env.size) :
    sizeLeftForStackDump env = env.size - 24 := by
  unfold sizeLeftForStackDump
  rw [two_pow_32] at hbs ⊢
  omega

theorem numBytes_le (env : Env) (sp : Nat) (hbs : env.base + env.size < 2^32)
    (hsz : 24 ≤ env.size) : NumOfbyteToWrite env sp ≤ env.size - 24 := by
  unfold NumOfbyteToWrite
  rw [sizeLeft_eq env hbs hsz]
  omega

theorem captureAfterHeader_out (env : Env) (scb : SCB_registers_t) (m : Mem) (i : Nat)
    (hsz : 24 ≤ env.size) (h : i < env.base ∨ env.base + env.size ≤ i) :
    captureAfterHeader env scb m i = m i := by
  unfold captureAfterHeader hardFault_eraseSavedData
  rw [memory_write_out _ _ _ _ (by rw [scbToBytes_length]; omega),
      memory_erase_out _ _ _ _ h]

theorem captureAfterHeader_scb (env : Env) (scb : SCB_registers_t) (m : Mem) (i : Nat)
    (h : i < 24) :
    captureAfterHeader env scb m (env.base + i) = (scbToBytes scb).getD i 0 := by
  unfold captureAfterHeader
  rw [memory_write_in _ _ _ _ (by omega) (by rw [scbToBytes_length]; omega),
      Nat.add_sub_cancel_left]

/-- The final stack `memcpy` does not touch the 24 header bytes. -/
theorem capture_byte_scb (env : Env) (scb : SCB_registers_t) (sp : Nat) (m : Mem)
    (hb24 : env.base + 24 < 2^32) (i : Nat) (h : i < 24) :
    prvGetRegistersFromStack env scb sp m (env.base + i) = (scbToBytes scb).getD i 0 := by
  unfold prvGetRegistersFromStack
  rw [Nat.mod_eq_of_lt hb24, memory_write_out _ _ _ _ (by left; omega)]
  exact captureAfterHeader_scb env scb m i h

/-- Byte `j` of the stack `memcpy` lands at region offset `24 + j` and holds the
byte the copy read at `sp + j`. -/
theorem capture_byte_stack (env : Env) (scb : SCB_registers_t) (sp : Nat) (m : Mem)
    (hb24 : env.base + 24 < 2^32) (j : Nat) (h : j < NumOfbyteToWrite env sp) :
    prvGetRegistersFromStack env scb sp m (env.base + 24 + j) =
      captureAfterHeader env scb m (sp + j) := by
  unfold prvGetRegistersFromStack
  rw [Nat.mod_eq_of_lt hb24,
      memory_write_in _ _ _ _ (by omega)
        (by rw [List.length_map, List.length_range]; omega),
      show env.base + 24 + j - (env.base + 24) = j from by omega]
  exact getD_map_range _ _ _ h

/-- When the faulting stack does not overlap the persistent region, the bytes
the stack `memcpy` reads are the original RAM bytes at `sp + j`. -/
theorem capture_stack_byte_src (env : Env) (scb : SCB_registers_t) (sp : Nat) (m : Mem)
    (hbs : env.base + env.size < 2^32) (hsz : 24 ≤ env.size)
    (hdisj : env.base + env.size ≤ sp ∨ sp + NumOfbyteToWrite env sp ≤ env.base)
    (j : Nat) (hj : j < NumOfbyteToWrite env sp) :
    prvGetRegistersFromStack env scb sp m (env.base + 24 + j) = m (sp + j) := by
  rw [capture_byte_stack env scb sp m (by omega) j hj]
  exact captureAfterHeader_out env scb m (sp + j) hsz (by omega)

/-- Nothing outside the persistent region is written by the capture. -/
theorem capture_frame (env : Env) (scb : SCB_registers_t) (sp : Nat) (m : Mem)
    (hbs : env.base + env.size < 2^32) (hsz : 24 ≤ env.size) (i : Nat)
    (h : i < env.base ∨ env.base + env.size ≤ i) :
    prvGetRegistersFromStack env scb sp m i = m i := by
  have hn := numBytes_le env sp hbs hsz
  unfold prvGetRegistersFromStack
  rw [Nat.mod_eq_of_lt (by omega),
      memory_write_out _ _ _ _
        (by rw [List.length_map, List.length_range]; omega)]
  exact captureAfterHeader_out env scb m i hsz h

/-- A 32-bit word of the captured stack image, read back from region offset
`24 + o`, equals the word at `sp + o` of the pre-capture RAM. -/
theorem capture_word_stack (env : Env) (scb : SCB_registers_t) (sp : Nat) (m : Mem)
    (hbs : env.base + env.size < 2^32) (hsz : 24 ≤ env.size)
    (hdisj : env.base + env.size ≤ sp ∨ sp + NumOfbyteToWrite env sp ≤ env.base)
    (o : Nat) (ho : o + 4 ≤ NumOfbyteToWrite env sp) :
    readW32 (prvGetRegistersFromStack env scb sp m) (env.base + 24 + o) =
      readW32 m (sp + o) := by
  apply readW32_congr
  intro j hj
  have h := capture_stack_byte_src env scb sp m hbs hsz hdisj (o + j) (by omega)
  rw [show env.base + 24 + o + j = env.base + 24 + (o + j) from by omega,
      show sp + o + j = sp + (o + j) from by omega]
  exact h

/-- Words of the caller's buffer filled by `hardFault_readSavedData` mirror the
words of the persistent region. -/
theorem read_word_buffer (env : Env) (m : Mem) (buffer bufferSize o : Nat)
    (h : o + 4 ≤ bufferSize) :
    readW32 (hardFault_readSavedData env m buffer bufferSize).1 (buffer + o) =
      readW32 m (env.base + o) := by
  apply readW32_congr
  intro j hj
  unfold hardFault_readSavedData
  dsimp only
  rw [show buffer + o + j = buffer + (o + j) from by omega,
      memory_read_in _ _ _ _ _ (by omega) (by omega)]
  rw [show buffer + (o + j) - buffer = o + j from by omega,
      show env.base + o + j = env.base + (o + j) from by omega]

/-- The six SCB words decoded from the captured region equal the fault-status
register values snapshotted at capture time. -/
theorem decode_capture_scb (env : Env) (scb : SCB_registers_t) (sp : Nat) (m : Mem)
    (hbs : env.base + env.size < 2^32) (hsz : 24 ≤ env.size)
    (h1 : scb.CFSR < 2^32) (h2 : scb.HFSR < 2^32) (h3 : scb.DFSR < 2^32)
    (h4 : scb.MMFAR < 2^32) (h5 : scb.BFAR < 2^32) (h6 : scb.AFSR < 2^32) :
    (decodeDump (prvGetRegistersFromStack env scb sp m) env.base).1 = scb := by
  have B := capture_byte_scb env scb sp m (by omega)
  have w0 : readW32 (prvGetRegistersFromStack env scb sp m) env.base = scb.CFSR := by
    rw [← Nat.mod_eq_of_lt h1]
    refine readW32_of_bytes _ _ _ ?_ ((B 1 (by omega)).trans rfl)
      ((B 2 (by omega)).trans rfl) ((B 3 (by omega)).trans rfl)
    have h := B 0 (by omega)
    rw [Nat.add_zero] at h
    exact h.trans rfl
  have w1 : readW32 (prvGetRegistersFromStack env scb sp m) (env.base + 4) = scb.HFSR := by
    rw [← Nat.mod_eq_of_lt h2]
    exact readW32_of_bytes _ _ _ ((B 4 (by omega)).trans rfl) ((B 5 (by omega)).trans rfl)
      ((B 6 (by omega)).trans rfl) ((B 7 (by omega)).trans rfl)
  have w2 : readW32 (prvGetRegistersFromStack env scb sp m) (env.base + 8) = scb.DFSR := by
    rw [← Nat.mod_eq_of_lt h3]
    exact readW32_of_bytes _ _ _ ((B 8 (by omega)).trans rfl) ((B 9 (by omega)).trans rfl)
      ((B 10 (by omega)).trans rfl) ((B 11 (by omega)).trans rfl)
  have w3 : readW32 (prvGetRegistersFromStack env scb sp m) (env.base + 12) = scb.MMFAR := by
    rw [← Nat.mod_eq_of_lt h4]
    exact readW32_of_bytes _ _ _ ((B 12 (by omega)).trans rfl) ((B 13 (by omega)).trans rfl)
      ((B 14 (by omega)).trans rfl) ((B 15 (by omega)).trans rfl)
  have w4 : readW32 (prvGetRegistersFromStack env scb sp m) (env.base + 16) = scb.BFAR := by
    rw [← Nat.mod_eq_of_lt h5]
    exact readW32_of_bytes _ _ _ ((B 16 (by omega)).trans rfl) ((B 17 (by omega)).trans rfl)
      ((B 18 (by omega)).trans rfl) ((B 19 (by omega)).trans rfl)
  have w5 : readW32 (prvGetRegistersFromStack env scb sp m) (env.base + 20) = scb.AFSR := by
    rw [← Nat.mod_eq_of_lt h6]
    exact readW32_of_bytes _ _ _ ((B 20 (by omega)).trans rfl) ((B 21 (by omega)).trans rfl)
      ((B 22 (by omega)).trans rfl) ((B 23 (by omega)).trans rfl)
  unfold decodeDump
  dsimp only
  rw [w0, w1, w2, w3, w4, w5]

/-- The eight core-register words decoded from the captured region equal the
words of the exception frame at `sp` in the pre-capture RAM. -/
theorem decode_capture_core (env : Env) (scb : SCB_registers_t) (sp : Nat) (m : Mem)
    (hbs : env.base + env.size < 2^32) (hsz : 24 ≤ env.size)
    (hn : 32 ≤ NumOfbyteToWrite env sp)
    (hdisj : env.base + env.size ≤ sp ∨ sp + NumOfbyteToWrite env sp ≤ env.base) :
    (decodeDump (prvGetRegistersFromStack env scb sp m) env.base).2 = frameRegisters m sp := by
  have W := capture_word_stack env scb sp m hbs hsz hdisj
  have w0 : readW32 (prvGetRegistersFromStack env scb sp m) (env.base + 24) = readW32 m sp := by
    have h := W 0 (by omega)
    rw [Nat.add_zero, Nat.add_zero] at h
    exact h
  have w1 : readW32 (prvGetRegistersFromStack env scb sp m) (env.base + 28) = readW32 m (sp + 4) := by
    have h := W 4 (by omega)
    rw [show env.base + 24 + 4 = env.base + 28 from by omega] at h
    exact h
  have w2 : readW32 (prvGetRegistersFromStack env scb sp m) (env.base + 32) = readW32 m (sp + 8) := by
    have h := W 8 (by omega)
    rw [show env.base + 24 + 8 = env.base + 32 from by omega] at h
    exact h
  have w3 : readW32 (prvGetRegistersFromStack env scb sp m) (env.base + 36) = readW32 m (sp + 12) := by
    have h := W 12 (by omega)
    rw [show env.base + 24 + 12 = env.base + 36 from by omega] at h
    exact h
  have w4 : readW32 (prvGetRegistersFromStack env scb sp m) (env.base + 40) = readW32 m (sp + 16) := by
    have h := W 16 (by omega)
    rw [show env.base + 24 + 16 = env.base + 40 from by omega] at h
    exact h
  have w5 : readW32 (prvGetRegistersFromStack env scb sp m) (env.base + 44) = readW32 m (sp + 20) := by
    have h := W 20 (by omega)
    rw [show env.base + 24 + 20 = env.base + 44 from by omega] at h
    exact h
  have w6 : readW32 (prvGetRegistersFromStack env scb sp m) (env.base + 48) = readW32 m (sp + 24) := by
    have h := W 24 (by omega)
    rw [show env.base + 24 + 24 = env.base + 48 from by omega] at h
    exact h
  have w7 : readW32 (prvGetRegistersFromStack env scb sp m) (env.base + 52) = readW32 m (sp + 28) := by
    have h := W 28 (by omega)
    rw [show env.base + 24 + 28 = env.base + 52 from by omega] at h
    exact h
  unfold decodeDump frameRegisters
  dsimp only
  rw [w0, w1, w2, w3, w4, w5, w6, w7]

/-- `captureAfterHeader` agrees on two initial RAMs that differ only inside the
persistent region: the erase zeroes that region, the SCB write overwrites part
of it, and everything else is read from the common part. -/
theorem captureAfterHeader_congr (env : Env) (scb : SCB_registers_t) (m₁ m₂ : Mem)
    (h : ∀ a, a < env.base ∨ env.base + env.size ≤ a → m₁ a = m₂ a) (x : Nat) :
    captureAfterHeader env scb m₁ x = captureAfterHeader env scb m₂ x := by
  unfold captureAfterHeader hardFault_eraseSavedData memory_write memory_erase
  by_cases hw : env.base ≤ x ∧ x < env.base + (scbToBytes scb).length
  · rw [if_pos hw, if_pos hw]
  · rw [if_neg hw, if_neg hw]
    by_cases he : env.base ≤ x ∧ x < env.base + env.size
    · rw [if_pos he, if_pos he]
    · rw [if_neg he, if_neg he]
      exact h x (by omega)

/-- The whole capture result is independent of the prior contents of the
persistent region (consequence of the erase-before-write discipline). -/
theorem capture_congr (env : Env) (scb : SCB_registers_t) (sp : Nat) (m₁ m₂ : Mem)
    (h : ∀ a, a < env.base ∨ env.base + env.size ≤ a → m₁ a = m₂ a) (x : Nat) :
    prvGetRegistersFromStack env scb sp m₁ x = prvGetRegistersFromStack env scb sp m₂ x := by
  have hd : ((List.range (NumOfbyteToWrite env sp)).map fun j => captureAfterHeader env scb m₁ (sp + j))
      = ((List.range (NumOfbyteToWrite env sp)).map fun j => captureAfterHeader env scb m₂ (sp + j)) := by
    apply List.map_congr_left
    intro j _
    exact captureAfterHeader_congr env scb m₁ m₂ h (sp + j)
  unfold prvGetRegistersFromStack
  rw [hd]
  unfold memory_write
  by_cases hw : (env.base + 24) % 2^32 ≤ x ∧
      x < (env.base + 24) % 2^32 +
        ((List.range (NumOfbyteToWrite env sp)).map fun j => captureAfterHeader env scb m₂ (sp + j)).length
  · rw [if_pos hw, if_pos hw]
  · rw [if_neg hw, if_neg hw]
    exact captureAfterHeader_congr env scb m₁ m₂ h x

/-! ### The claims -/

/-- C5: `getStackBase` returns the task-stack upper bound `sp + 1024` (32-bit
arithmetic) exactly when `sp` equals the live PSP value read at decision time,
and returns the linker symbol `_estack` for every other `sp`. -/
theorem c5_getStackBase (env : Env) (sp : Nat) :
    (sp = env.psp → getStackBase env sp = (sp + 1024) % 2^32) ∧
    (sp ≠ env.psp → getStackBase env sp = env.estack % 2^32) := by
  constructor
  · intro h
    unfold getStackBase getTaskStackBase
    rw [if_pos h]
  · intro h
    unfold getStackBase getMainStackBase
    rw [if_neg h]

theorem c5_getStackBase_witness :
    getStackBase ⟨0, 0, 777, 555⟩ 555 = 1579 ∧ getStackBase ⟨0, 0, 777, 555⟩ 600 = 777 := by
  constructor
  · exact ((c5_getStackBase ⟨0, 0, 777, 555⟩ 555).1 rfl).trans (by decide)
  · exact ((c5_getStackBase ⟨0, 0, 777, 555⟩ 600).2 (by decide)).trans (by decide)

/-- C7: `hardFault_eraseSavedData` overwrites the full declared capacity with
the erased pattern (the byte the implementation's `memset` writes), is
idempotent, is a total operation (safe whatever the region holds), and —
because `prvGetRegistersFromStack` erases the full capacity before any write —
the captured record is independent of the region's prior contents (no stale
bytes from a shorter previous record). -/
theorem c7_erase (env : Env) (scb : SCB_registers_t) (sp : Nat) (m m₁ m₂ : Mem) :
    (∀ i, i < env.size → hardFault_eraseSavedData env m (env.base + i) = 0) ∧
    hardFault_eraseSavedData env (hardFault_eraseSavedData env m) =
      hardFault_eraseSavedData env m ∧
    ((∀ a, a < env.base ∨ env.base + env.size ≤ a → m₁ a = m₂ a) →
      ∀ i, i < env.size →
        prvGetRegistersFromStack env scb sp m₁ (env.base + i) =
          prvGetRegistersFromStack env scb sp m₂ (env.base + i)) := by
  refine ⟨?_, ?_, ?_⟩
  · intro i hi
    unfold hardFault_eraseSavedData
    exact memory_erase_in m env.base env.size (env.base + i) (by omega) (by omega)
  · funext i
    unfold hardFault_eraseSavedData memory_erase
    by_cases h : env.base ≤ i ∧ i < env.base + env.size
    · rw [if_pos h, if_pos h]
    · rw [if_neg h, if_neg h]
  · intro h i _
    exact capture_congr env scb sp m₁ m₂ h (env.base + i)

theorem c7_erase_witness :
    hardFault_eraseSavedData ⟨0, 64, 2000, 3000⟩ (fun _ => 5) (0 + 3) = 0 ∧
    hardFault_eraseSavedData ⟨0, 64, 2000, 3000⟩
        (hardFault_eraseSavedData ⟨0, 64, 2000, 3000⟩ fun _ => 5) =
      hardFault_eraseSavedData ⟨0, 64, 2000, 3000⟩ (fun _ => 5) ∧
    prvGetRegistersFromStack ⟨0, 64, 2000, 3000⟩ ⟨1, 2, 3, 4, 5, 6⟩ 100 (fun i => i) (0 + 7) =
      prvGetRegistersFromStack ⟨0, 64, 2000, 3000⟩ ⟨1, 2, 3, 4, 5, 6⟩ 100
        (fun i => if i < 64 then 99 else i) (0 + 7) := by
  have h := c7_erase ⟨0, 64, 2000, 3000⟩ ⟨1, 2, 3, 4, 5, 6⟩ 100 (fun _ => 5)
    (fun i => i) (fun i => if i < 64 then 99 else i)
  refine ⟨h.1 3 (by norm_num), h.2.1, h.2.2 ?_ 7 (by norm_num)⟩
  intro a ha
  have ha' : a < 0 ∨ 64 ≤ a := ha
  have h64 : ¬ a < 64 := by omega
  rw [if_neg h64]

/-- C8: `hardFault_readSavedData` is a pure read of the persistent region: with
the caller's buffer disjoint from the region (it is caller-provided storage),
every byte of the region is unchanged by the call. -/
theorem c8_read_pure (env : Env) (m : Mem) (buffer bufferSize : Nat)
    (hdisj : buffer + bufferSize ≤ env.base ∨ env.base + env.size ≤ buffer) :
    ∀ i, env.base ≤ i → i < env.base + env.size →
      (hardFault_readSavedData env m buffer bufferSize).1 i = m i := by
  intro i h1 h2
  unfold hardFault_readSavedData
  dsimp only
  exact memory_read_out _ _ _ _ _ (by omega)

theorem c8_read_pure_witness :
    (hardFault_readSavedData ⟨0, 64, 0, 0⟩ (fun i => i) 100 16).1 5 = 5 :=
  c8_read_pure ⟨0, 64, 0, 0⟩ (fun i => i) 100 16 (Or.inr (by norm_num)) 5
    (by norm_num) (by norm_num)

/-- C9: the erase pattern the implementation writes is all-zero bytes (its
`memory_erase` is `memset(..., 0, ...)`): after `hardFault_eraseSavedData`
every region byte is 0, and the PC field at region offset 48 reads
0x00000000 — not the all-ones sentinel. -/
theorem c9_erase_zero (env : Env) (m : Mem) (hsz : 52 ≤ env.size) :
    (∀ i, i < env.size → hardFault_eraseSavedData env m (env.base + i) = 0) ∧
    readW32 (hardFault_eraseSavedData env m) (env.base + 48) = 0 := by
  constructor
  · intro i hi
    unfold hardFault_eraseSavedData
    exact memory_erase_in m env.base env.size (env.base + i) (by omega) (by omega)
  · unfold hardFault_eraseSavedData readW32
    rw [memory_erase_in m env.base env.size (env.base + 48) (by omega) (by omega),
        memory_erase_in m env.base env.size (env.base + 48 + 1) (by omega) (by omega),
        memory_erase_in m env.base env.size (env.base + 48 + 2) (by omega) (by omega),
        memory_erase_in m env.base env.size (env.base + 48 + 3) (by omega) (by omega)]
    norm_num

theorem c9_erase_zero_witness :
    hardFault_eraseSavedData ⟨16, 64, 0, 0⟩ (fun _ => 250) (16 + 20) = 0 ∧
    readW32 (hardFault_eraseSavedData ⟨16, 64, 0, 0⟩ fun _ => 250) (16 + 48) = 0 := by
  have h := c9_erase_zero ⟨16, 64, 0, 0⟩ (fun _ => 250) (by norm_num)
  exact ⟨h.1 20 (by norm_num), h.2⟩

/-- C10: `hardFault_readSavedData` copies exactly `bufferSize` bytes from the
region base into the buffer; its boolean result is the sentinel test on the
32-bit word at buffer offset 48 (the PC field), and when `bufferSize ≤ 48`
that word was not filled by the copy, so the stale prior buffer bytes are what
get inspected. -/
theorem c10_read_exact (env : Env) (m : Mem) (buffer bufferSize : Nat) :
    (∀ i, i < bufferSize →
      (hardFault_readSavedData env m buffer bufferSize).1 (buffer + i) = m (env.base + i)) ∧
    (hardFault_readSavedData env m buffer bufferSize).2 =
      (readW32 (hardFault_readSavedData env m buffer bufferSize).1 (buffer + 48) != 0xFFFFFFFF) ∧
    (bufferSize ≤ 48 →
      readW32 (hardFault_readSavedData env m buffer bufferSize).1 (buffer + 48) =
        readW32 m (buffer + 48)) := by
  refine ⟨?_, rfl, ?_⟩
  · intro i hi
    unfold hardFault_readSavedData
    dsimp only
    rw [memory_read_in _ _ _ _ _ (by omega) (by omega),
        show buffer + i - buffer = i from by omega]
  · intro h
    apply readW32_congr
    intro j hj
    unfold hardFault_readSavedData
    dsimp only
    rw [memory_read_out _ _ _ _ _ (by omega)]

theorem c10_read_exact_witness :
    (hardFault_readSavedData ⟨0, 64, 0, 0⟩ (fun i => i + 1) 100 10).1 (100 + 3) = (0 + 3) + 1 ∧
    (hardFault_readSavedData ⟨0, 64, 0, 0⟩ (fun i => i + 1) 100 10).2 =
      (readW32 (hardFault_readSavedData ⟨0, 64, 0, 0⟩ (fun i => i + 1) 100 10).1 (100 + 48)
        != 0xFFFFFFFF) ∧
    readW32 (hardFault_readSavedData ⟨0, 64, 0, 0⟩ (fun i => i + 1) 100 10).1 (100 + 48) =
      readW32 (fun i => i + 1) (100 + 48) := by
  have h := c10_read_exact ⟨0, 64, 0, 0⟩ (fun i => i + 1) 100 10
  exact ⟨h.1 3 (by norm_num), h.2.1, h.2.2 (by norm_num)⟩

/-- C1: the spec requires that `eraseRecord` followed by `readRecord` return
false with the PC field reading the all-ones sentinel; the code violates this.
Evaluated at a concrete input (region base 0, capacity 64, prior contents all
0xAB, a 64-byte read into a disjoint buffer at 100): after
`hardFault_eraseSavedData` the PC field at region offset 48 reads 0x00000000
(the `memset` pattern is 0x00, not 0xFF), so `hardFault_readSavedData`
returns true, not false. -/
theorem c1_erase_then_read_reports_record :
    (hardFault_readSavedData ⟨0, 64, 0, 0⟩
        (hardFault_eraseSavedData ⟨0, 64, 0, 0⟩ fun _ => 171) 100 64).2 = true ∧
    readW32 (hardFault_eraseSavedData ⟨0, 64, 0, 0⟩ fun _ => 171) (0 + 48) = 0 := by
  constructor
  · decide
  · decide

/-- C2: the spec requires a resolved bound below the faulting stack pointer to
clamp the stack size to zero; the code has no clamp.  At sp = 200 in the
main-context case (PSP = 999 ≠ sp) with `_estack` = 100 below sp and region
capacity 80, the unsigned subtraction wraps to 2^32 - 100 and `MIN` clips it
to the 56 remaining bytes, so 56 stack bytes — not zero — are written from the
invalid range. -/
theorem c2_stackSize_not_clamped :
    stackSize ⟨0, 80, 100, 999⟩ 200 = 4294967196 ∧
    NumOfbyteToWrite ⟨0, 80, 100, 999⟩ 200 = 56 := by
  constructor
  · decide
  · decide

/-- C3: capacity clipping.  The record header is H = 56 bytes (24 SCB bytes
plus the 32-byte core-register frame, which the stack `memcpy` writes first).
When the resolved capture extends `S` bytes past the 32-byte frame
(`stackSize = 32 + S`) and H ≤ C = `env.size`, the `memcpy` length is
`32 + min S (C - 56)` — i.e. exactly `min S (C - 56)` stack bytes land after
the header — and no write of the capture touches any address at or beyond
`base + C`. -/
theorem c3_capture_clip (env : Env) (scb : SCB_registers_t) (sp S : Nat) (m : Mem)
    (hbs : env.base + env.size < 2^32) (hH : 56 ≤ env.size)
    (hS : stackSize env sp = 32 + S) :
    NumOfbyteToWrite env sp - 32 = min S (env.size - 56) ∧
    32 ≤ NumOfbyteToWrite env sp ∧
    ∀ i, env.base + env.size ≤ i → prvGetRegistersFromStack env scb sp m i = m i := by
  have hmin : NumOfbyteToWrite env sp = min (32 + S) (env.size - 24) := by
    unfold NumOfbyteToWrite
    rw [hS, sizeLeft_eq env hbs (by omega)]
  refine ⟨?_, ?_, ?_⟩
  · rw [hmin]
    omega
  · rw [hmin]
    omega
  · intro i hi
    exact capture_frame env scb sp m hbs (by omega) i (Or.inr hi)

theorem c3_capture_clip_witness :
    NumOfbyteToWrite ⟨0, 64, 9, 500⟩ 500 - 32 = min 992 (64 - 56) ∧
    32 ≤ NumOfbyteToWrite ⟨0, 64, 9, 500⟩ 500 ∧
    prvGetRegistersFromStack ⟨0, 64, 9, 500⟩ ⟨1, 2, 3, 4, 5, 6⟩ 500 (fun i => i) 100 = 100 := by
  have h := c3_capture_clip ⟨0, 64, 9, 500⟩ ⟨1, 2, 3, 4, 5, 6⟩ 500 992 (fun i => i)
    (by decide) (by decide) (by decide)
  exact ⟨h.1, h.2.1, h.2.2 100 (by decide)⟩

/-- C4: round-trip fidelity of the fixed header.  For any fault-status values
and any exception-frame contents, capturing and then reading back with a
buffer of at least the 56-byte header returns true (given the captured PC
is not the sentinel), and the Fault Status Block and Core Register Block
decoded from the buffer equal the values present at capture time.  The
side conditions: sane linker constants, a full 32-byte frame inside the
resolved capture, and the faulting stack disjoint from the persistent
region (as the linker guarantees). -/
theorem c4_roundtrip (env : Env) (scb : SCB_registers_t) (sp : Nat) (m : Mem)
    (buffer bufferSize : Nat)
    (hbs : env.base + env.size < 2^32) (hsz : 56 ≤ env.size)
    (hn : 32 ≤ NumOfbyteToWrite env sp)
    (hdisj : env.base + env.size ≤ sp ∨ sp + NumOfbyteToWrite env sp ≤ env.base)
    (hbuf : 56 ≤ bufferSize)
    (h1 : scb.CFSR < 2^32) (h2 : scb.HFSR < 2^32) (h3 : scb.DFSR < 2^32)
    (h4 : scb.MMFAR < 2^32) (h5 : scb.BFAR < 2^32) (h6 : scb.AFSR < 2^32)
    (hPC : (frameRegisters m sp).PC ≠ 0xFFFFFFFF) :
    (hardFault_readSavedData env (prvGetRegistersFromStack env scb sp m) buffer bufferSize).2 = true ∧
    (decodeDump (hardFault_readSavedData env (prvGetRegistersFromStack env scb sp m) buffer bufferSize).1 buffer).1 = scb ∧
    (decodeDump (hardFault_readSavedData env (prvGetRegistersFromStack env scb sp m) buffer bufferSize).1 buffer).2 = frameRegisters m sp := by
  have R := read_word_buffer env (prvGetRegistersFromStack env scb sp m) buffer bufferSize
  have r0 : readW32 (hardFault_readSavedData env (prvGetRegistersFromStack env scb sp m) buffer bufferSize).1 buffer
      = readW32 (prvGetRegistersFromStack env scb sp m) env.base := by
    have h := R 0 (by omega)
    rw [Nat.add_zero, Nat.add_zero] at h
    exact h
  have hdump : decodeDump (hardFault_readSavedData env (prvGetRegistersFromStack env scb sp m) buffer bufferSize).1 buffer
      = decodeDump (prvGetRegistersFromStack env scb sp m) env.base := by
    unfold decodeDump
    rw [r0, R 4 (by omega), R 8 (by omega), R 12 (by omega), R 16 (by omega),
        R 20 (by omega), R 24 (by omega), R 28 (by omega), R 32 (by omega),
        R 36 (by omega), R 40 (by omega), R 44 (by omega), R 48 (by omega),
        R 52 (by omega)]
  have hcore : (decodeDump (hardFault_readSavedData env (prvGetRegistersFromStack env scb sp m) buffer bufferSize).1 buffer).2
      = frameRegisters m sp := by
    rw [hdump]
    exact decode_capture_core env scb sp m hbs (by omega) hn hdisj
  refine ⟨?_, ?_, hcore⟩
  · show (readW32 (hardFault_readSavedData env (prvGetRegistersFromStack env scb sp m) buffer bufferSize).1 (buffer + 48) != 0xFFFFFFFF) = true
    have hpc : readW32 (hardFault_readSavedData env (prvGetRegistersFromStack env scb sp m) buffer bufferSize).1 (buffer + 48)
        = (frameRegisters m sp).PC := congrArg core_registers_t.PC hcore
    rw [hpc]
    exact bne_iff_ne.mpr hPC
  · rw [hdump]
    exact decode_capture_scb env scb sp m hbs (by omega) h1 h2 h3 h4 h5 h6

theorem c4_roundtrip_witness :
    (hardFault_readSavedData ⟨1000, 64, 0, 500⟩
        (prvGetRegistersFromStack ⟨1000, 64, 0, 500⟩ ⟨1, 2, 3, 4, 5, 6⟩ 500 fun i => i % 256)
        2000 64).2 = true ∧
    (decodeDump (hardFault_readSavedData ⟨1000, 64, 0, 500⟩
        (prvGetRegistersFromStack ⟨1000, 64, 0, 500⟩ ⟨1, 2, 3, 4, 5, 6⟩ 500 fun i => i % 256)
        2000 64).1 2000).1 = ⟨1, 2, 3, 4, 5, 6⟩ ∧
    (decodeDump (hardFault_readSavedData ⟨1000, 64, 0, 500⟩
        (prvGetRegistersFromStack ⟨1000, 64, 0, 500⟩ ⟨1, 2, 3, 4, 5, 6⟩ 500 fun i => i % 256)
        2000 64).1 2000).2 = frameRegisters (fun i => i % 256) 500 :=
  c4_roundtrip ⟨1000, 64, 0, 500⟩ ⟨1, 2, 3, 4, 5, 6⟩ 500 (fun i => i % 256) 2000 64
    (by decide) (by decide) (by decide) (by decide) (by decide)
    (by decide) (by decide) (by decide) (by decide) (by decide) (by decide) (by decide)

/-- C6: fixed binary layout of the persisted record: bytes 0-23 of the region
are the six packed little-endian SCB words in declaration order
(`scbToBytes`), the eight 32-bit words at offsets 24-55 are the frame
registers R0, R1, R2, R3, R12, LR, PC, PSR in order with no padding, and the
captured stack bytes past the 32-byte register frame begin at offset 56. -/
theorem c6_layout (env : Env) (scb : SCB_registers_t) (sp : Nat) (m : Mem)
    (hbs : env.base + env.size < 2^32) (hsz : 56 ≤ env.size)
    (hn : 32 ≤ NumOfbyteToWrite env sp)
    (hdisj : env.base + env.size ≤ sp ∨ sp + NumOfbyteToWrite env sp ≤ env.base) :
    (∀ i, i < 24 → prvGetRegistersFromStack env scb sp m (env.base + i) =
        (scbToBytes scb).getD i 0) ∧
    (decodeDump (prvGetRegistersFromStack env scb sp m) env.base).2 = frameRegisters m sp ∧
    (∀ j, j < NumOfbyteToWrite env sp - 32 →
      prvGetRegistersFromStack env scb sp m (env.base + 56 + j) = m (sp + 32 + j)) := by
  refine ⟨?_, ?_, ?_⟩
  · intro i hi
    exact capture_byte_scb env scb sp m (by omega) i hi
  · exact decode_capture_core env scb sp m hbs (by omega) hn hdisj
  · intro j hj
    have h := capture_stack_byte_src env scb sp m hbs (by omega) hdisj (32 + j) (by omega)
    rw [show env.base + 56 + j = env.base + 24 + (32 + j) from by omega,
        show sp + 32 + j = sp + (32 + j) from by omega]
    exact h

theorem c6_layout_witness :
    prvGetRegistersFromStack ⟨1000, 64, 0, 500⟩ ⟨11, 22, 33, 44, 55, 66⟩ 500
        (fun i => i % 256) (1000 + 13) =
      (scbToBytes ⟨11, 22, 33, 44, 55, 66⟩).getD 13 0 ∧
    (decodeDump (prvGetRegistersFromStack ⟨1000, 64, 0, 500⟩ ⟨11, 22, 33, 44, 55, 66⟩ 500
        fun i => i % 256) 1000).2 = frameRegisters (fun i => i % 256) 500 ∧
    prvGetRegistersFromStack ⟨1000, 64, 0, 500⟩ ⟨11, 22, 33, 44, 55, 66⟩ 500
        (fun i => i % 256) (1000 + 56 + 2) = (fun i => i % 256) (500 + 32 + 2) := by
  have h := c6_layout ⟨1000, 64, 0, 500⟩ ⟨11, 22, 33, 44, 55, 66⟩ 500 (fun i => i % 256)
    (by decide) (by decide) (by decide) (by decide)
  exact ⟨h.1 13 (by decide), h.2.1, h.2.2 2 (by decide)⟩

end HardFault
